import Mathlib

/-!
# Verification of the threat-intelligence connector plugins

This file is a shallow embedding, in Lean 4, of the control-flow and data
transformations of the repository's plugin helpers and of the MISP plugin:

* `src/forescout_ztre/utils/helper.py` (`ForescoutPluginHelper`):
  `api_helper`, `handle_error`, `parse_response`, `remove_sensitive_info`;
* `src/viso_trust_are/utils/helper.py` (`VisoTrustPluginHelper`):
  `api_helper`, `handle_error`, `parse_response`;
* `src/misp/main.py` (`MISPPlugin`): the pagination loops of `_pull`,
  `get_modified_indicators` and `retract_indicators`, the attribute-to-
  indicator mapping of `_pull`, and the batching of `push`.

HTTP responses are abstracted by their status code (a `Nat`) plus a boolean
saying whether the body parses as JSON; request streams are functions from
the request index to the status code received.  The constants
`MAX_API_CALLS`, `DEFAULT_WAIT_TIME`, `PULL_PAGE_SIZE` and `BATCH_SIZE` live
in `constants.py` files that only declare numbers; they are kept as
parameters of the definitions.  Logging is a side effect and is not
modelled, except that the sanitisation function `remove_sensitive_info`
applied to log text is modelled in full.
-/

/-- Outcome of a Python function that either returns a value or raises the
plugin-specific exception.  `retNone` stands for Python's implicit
`return None` when control falls off the end of the function body; the
faithful translations below never produce it, which is exactly the
exhaustiveness property of the status-code dispatch. -/
inductive HandleResult where
  /-- returned the result of `parse_response` (a JSON body) -/
  | retJson : HandleResult
  /-- returned the empty dictionary `{}` -/
  | retEmpty : HandleResult
  /-- raised the plugin-specific exception -/
  | excRaised : HandleResult
  /-- implicit `return None` fall-through (never produced) -/
  | retNone : HandleResult
deriving DecidableEq, Repr

/-- `ForescoutPluginHelper.handle_error` (src/forescout_ztre/utils/helper.py,
lines 384-470).  `status` is `resp.status_code`; `parseOk` says whether
`resp.json()` succeeds (`parse_response` raises `ForescoutPluginException`
on a body that is not valid JSON); `isValidation` only changes the logged
messages, never the control flow.  The `error_dict` keys are
400, 403, 401, 404 in both the validation and the non-validation table. -/
def fs_handle_error (status : Nat) (parseOk : Bool) (isValidation : Bool) :
    HandleResult :=
  if status = 200 ∨ status = 201 then
    if parseOk then .retJson else .excRaised
  else if status = 204 then .retEmpty
  else if status = 400 ∨ status = 403 ∨ status = 401 ∨ status = 404 then
    -- both the `is_validation` and the plain branch log and raise
    if isValidation then .excRaised else .excRaised
  else .excRaised

/-- `VisoTrustPluginHelper.handle_error` (src/viso_trust_are/utils/helper.py,
lines 294-370).  Same conventions as `fs_handle_error`; the VISO TRUST
variant also treats 202 as a success status and deals with the 4xx/5xx
ranges by explicit range checks before a final catch-all `else`. -/
def viso_handle_error (status : Nat) (parseOk : Bool) : HandleResult :=
  if status = 200 ∨ status = 201 ∨ status = 202 then
    if parseOk then .retJson else .excRaised
  else if status = 204 then .retEmpty
  else if status = 403 then .excRaised
  else if status = 404 then .excRaised
  else if 400 ≤ status ∧ status < 500 then .excRaised
  else if 500 ≤ status ∧ status < 600 then .excRaised
  else .excRaised

/-- Outcome of one execution of the retry loop inside `api_helper`
(`for retry_counter in range(MAX_API_CALLS): ...`), together with the
re-authentication path of the Forescout variant. -/
inductive LoopOut where
  /-- returned `handle_error(response, ...)` (`is_handle_error_required`) -/
  | ret : HandleResult → LoopOut
  /-- returned the raw response object (`is_handle_error_required=False`) -/
  | raw : Nat → LoopOut
  /-- raised the plugin exception on the last permitted retry attempt -/
  | rateLimitRaise : LoopOut
  /-- Forescout only: took the 401 token-regeneration branch after the
  request with stream index `idx`; `api_helper` then recurses -/
  | reauth : (idx : Nat) → LoopOut
  /-- Forescout only: `get_auth_header` raised during re-authentication -/
  | authRaise : LoopOut
  /-- the `for` loop finished with no `return` (only possible when
  `MAX_API_CALLS = 0`); Python then returns `None` -/
  | loopEnd : LoopOut
deriving DecidableEq, Repr

/-- The retry loop of `ForescoutPluginHelper.api_helper`
(src/forescout_ztre/utils/helper.py, lines 169-255).

* `statuses k` is the status code answered to the `k`-th HTTP request of
  the enclosing top-level call, `parseOk k` whether its body parses;
* `idx` is the stream index of the request issued by the current loop
  iteration and `remaining` the number of loop iterations still allowed
  (the top-level call starts with `remaining = MAX_API_CALLS`), so the
  Python `retry_counter == MAX_API_CALLS - 1` test is `remaining = 1`;
* the result carries the outcome plus the number of HTTP requests issued
  by this loop and the number of `time.sleep(DEFAULT_WAIT_TIME)` calls.

The three branches mirror the source: `401 and regenerate_auth_token and
not is_validation` hands control to the re-authentication path;
`(429 or 500 <= status <= 600) and not is_validation` raises on the last
attempt and otherwise sleeps and retries; everything else returns
`handle_error(response)` or the raw response. -/
def fs_api_loop (statuses : Nat → Nat) (parseOk : Nat → Bool)
    (isValidation regen handleErr : Bool) :
    (idx : Nat) → (remaining : Nat) → LoopOut × Nat × Nat
  | _, 0 => (.loopEnd, 0, 0)
  | idx, remaining + 1 =>
    let st := statuses idx
    if st = 401 ∧ regen = true ∧ isValidation = false then
      (.reauth idx, 1, 0)
    else if (st = 429 ∨ (500 ≤ st ∧ st ≤ 600)) ∧ isValidation = false then
      if remaining = 0 then (.rateLimitRaise, 1, 0)
      else
        let r := fs_api_loop statuses parseOk isValidation regen handleErr
          (idx + 1) remaining
        (r.1, r.2.1 + 1, r.2.2 + 1)
    else if handleErr then
      (.ret (fs_handle_error st (parseOk idx) isValidation), 1, 0)
    else (.raw st, 1, 0)

/-- `ForescoutPluginHelper.api_helper` (src/forescout_ztre/utils/helper.py,
lines 112-255): runs the retry loop; when the loop takes the 401 branch it
regenerates the auth token (`get_auth_header`, abstracted by `authOk`; a
failed regeneration raises `ForescoutPluginException` which the enclosing
`except ForescoutPluginException: raise` re-raises) and recurses with
`regenerate_auth_token=False` on the rest of the response stream.  Counts
the requests and sleeps of all loop iterations of the call; the nested
`api_helper` call made inside `get_auth_header` itself is not counted. -/
def fs_api_helper (maxCalls : Nat) (statuses : Nat → Nat)
    (parseOk : Nat → Bool) (isValidation handleErr authOk : Bool) :
    (regen : Bool) → (start : Nat) → LoopOut × Nat × Nat
  | regen, start =>
    match fs_api_loop statuses parseOk isValidation regen handleErr start
        maxCalls with
    | (.reauth k, reqs, slps) =>
      if h : regen = true then
        if authOk then
          let inner := fs_api_helper maxCalls statuses parseOk isValidation
            handleErr authOk false (k + 1)
          (inner.1, reqs + inner.2.1, slps + inner.2.2)
        else (.authRaise, reqs, slps)
      else (.reauth k, reqs, slps)
    | out => out
  termination_by regen => if regen then 1 else 0
  decreasing_by simp [h]

/-- The retry loop of `VisoTrustPluginHelper.api_helper`
(src/viso_trust_are/utils/helper.py, lines 148-204).  Identical control
skeleton to `fs_api_loop` minus the 401 re-authentication branch, and
dispatching to `viso_handle_error`. -/
def viso_api_loop (statuses : Nat → Nat) (parseOk : Nat → Bool)
    (isValidation handleErr : Bool) :
    (idx : Nat) → (remaining : Nat) → LoopOut × Nat × Nat
  | _, 0 => (.loopEnd, 0, 0)
  | idx, remaining + 1 =>
    let st := statuses idx
    if (st = 429 ∨ (500 ≤ st ∧ st ≤ 600)) ∧ isValidation = false then
      if remaining = 0 then (.rateLimitRaise, 1, 0)
      else
        let r := viso_api_loop statuses parseOk isValidation handleErr
          (idx + 1) remaining
        (r.1, r.2.1 + 1, r.2.2 + 1)
    else if handleErr then
      (.ret (viso_handle_error st (parseOk idx)), 1, 0)
    else (.raw st, 1, 0)

/-- A status code the retry loops treat as retryable: the literal source
condition `response.status_code == 429 or 500 <= response.status_code <= 600`
(note the inclusive upper bound 600). -/
def retryableStatus (st : Nat) : Prop := st = 429 ∨ (500 ≤ st ∧ st ≤ 600)

instance (st : Nat) : Decidable (retryableStatus st) := by
  unfold retryableStatus; infer_instance

/-- The Python exception classes exercised by the `try/except` chains of
`api_helper` and `parse_response` in both helpers, collapsed to the classes
those chains test.  `userError` stands for an arbitrary other subclass of
`Exception` (platform exceptions such as `KeyboardInterrupt` that do not
derive from `Exception` are outside the chains' scope by Python semantics).
-/
inductive ExcClass where
  /-- Python `Exception` -/
  | exceptionBase : ExcClass
  /-- `requests.exceptions.RequestException` -/
  | requestException : ExcClass
  /-- `requests.exceptions.ConnectionError` -/
  | connectionError : ExcClass
  /-- `requests.exceptions.ProxyError` -/
  | proxyError : ExcClass
  /-- `requests.HTTPError` -/
  | httpError : ExcClass
  /-- `ValueError` -/
  | valueError : ExcClass
  /-- `json.JSONDecodeError` (raised by `response.json()`) -/
  | jsonDecodeError : ExcClass
  /-- `ForescoutPluginException` -/
  | forescoutExc : ExcClass
  /-- `VisoTrustException` -/
  | visoTrustExc : ExcClass
  /-- any other direct subclass of `Exception` -/
  | userError : ExcClass
deriving DecidableEq, Repr, Fintype

/-- The superclass chain (method resolution order up to `Exception`) of each
modelled exception class: `ProxyError <: ConnectionError <:
RequestException <: Exception`, `HTTPError <: RequestException`,
`JSONDecodeError <: ValueError`, and both plugin exception classes derive
directly from `Exception`. -/
def pySuperclasses : ExcClass → List ExcClass
  | .exceptionBase => [.exceptionBase]
  | .requestException => [.requestException, .exceptionBase]
  | .connectionError => [.connectionError, .requestException, .exceptionBase]
  | .proxyError =>
    [.proxyError, .connectionError, .requestException, .exceptionBase]
  | .httpError => [.httpError, .requestException, .exceptionBase]
  | .valueError => [.valueError, .exceptionBase]
  | .jsonDecodeError => [.jsonDecodeError, .valueError, .exceptionBase]
  | .forescoutExc => [.forescoutExc, .exceptionBase]
  | .visoTrustExc => [.visoTrustExc, .exceptionBase]
  | .userError => [.userError, .exceptionBase]

/-- A Python `except C:` clause catches an instance of class `e` iff `C` is
a superclass of `e`. -/
def pyCatches (clause e : ExcClass) : Bool :=
  (pySuperclasses e).contains clause

/-- One `except` clause of a `try` statement: the class it tests, whether
its body calls `self.logger.error`, and the class it (re-)raises. -/
structure ExceptClause where
  catches : ExcClass
  logs : Bool
  raises : ExcClass

/-- Python `except`-clause dispatch: the first clause whose class matches
handles the exception; `none` means the exception propagates unhandled. -/
def runExceptChain : List ExceptClause → ExcClass → Option (Bool × ExcClass)
  | [], _ => none
  | c :: rest, e =>
    if pyCatches c.catches e then some (c.logs, c.raises)
    else runExceptChain rest e

/-- The `except` chain of `ForescoutPluginHelper.api_helper`
(src/forescout_ztre/utils/helper.py, lines 256-338): re-raise the plugin
exception unchanged, and log and wrap `ProxyError`, `ConnectionError`,
`HTTPError` and any other `Exception` into `ForescoutPluginException`. -/
def fs_api_helper_chain : List ExceptClause :=
  [⟨.forescoutExc, false, .forescoutExc⟩,
   ⟨.proxyError, true, .forescoutExc⟩,
   ⟨.connectionError, true, .forescoutExc⟩,
   ⟨.httpError, true, .forescoutExc⟩,
   ⟨.exceptionBase, true, .forescoutExc⟩]

/-- The `except` chain of `ForescoutPluginHelper.parse_response`
(src/forescout_ztre/utils/helper.py, lines 340-382). -/
def fs_parse_response_chain : List ExceptClause :=
  [⟨.jsonDecodeError, true, .forescoutExc⟩,
   ⟨.exceptionBase, true, .forescoutExc⟩]

/-- The `except` chain of `VisoTrustPluginHelper.api_helper`
(src/viso_trust_are/utils/helper.py, lines 205-246); here the plugin
exception's own re-raise clause comes fourth, after the `requests` error
classes. -/
def viso_api_helper_chain : List ExceptClause :=
  [⟨.proxyError, true, .visoTrustExc⟩,
   ⟨.connectionError, true, .visoTrustExc⟩,
   ⟨.httpError, true, .visoTrustExc⟩,
   ⟨.visoTrustExc, false, .visoTrustExc⟩,
   ⟨.exceptionBase, true, .visoTrustExc⟩]

/-- The `except` chain of `VisoTrustPluginHelper.parse_response`
(src/viso_trust_are/utils/helper.py, lines 248-292). -/
def viso_parse_response_chain : List ExceptClause :=
  [⟨.jsonDecodeError, true, .visoTrustExc⟩,
   ⟨.exceptionBase, true, .visoTrustExc⟩]


/-- A MISP attribute as returned by `attributes/restSearch`, reduced to the
fields the pull/retraction flows read: `attr["Event"]["info"]`,
`attr["Event"]["id"]`, `attr["type"]` and `attr["value"]` (a missing value
is the empty string, which Python treats as falsy exactly like a missing
key).  Timestamps, tags and decay scores do not influence the properties
proved here and are not modelled. -/
structure MispAttr where
  eventInfo : String
  eventId : String
  type : String
  value : String
deriving DecidableEq, Repr

/-- Python `str.split(sep)` for a one-character separator, over the
character list of the string: `"".split("|") == [""]`, `"|".split("|") ==
["", ""]`, `"a|b".split("|") == ["a", "b"]`.  (The function never returns
an empty list; the `[]` match arm is unreachable.) -/
def pySplit (sep : Char) : List Char → List (List Char)
  | [] => [[]]
  | c :: rest =>
    match pySplit sep rest with
    | [] => [[c]]
    | grp :: groups =>
      if c = sep then [] :: grp :: groups else (c :: grp) :: groups

/-- `value.split("|")` from the MISP plugin, as a list of strings. -/
def splitPipe (s : String) : List String :=
  (pySplit '|' s.data).map (fun cs => ⟨cs⟩)


/-- The indicator-value set one response page contributes in
`MISPPlugin.get_modified_indicators` (src/misp/main.py, lines 493-512):
skip attributes of excluded events, split a `domain|ip` value on `|` and
add the non-empty components, and add the raw value for every other type
in `ATTRIBUTE_TYPES` (the constant list is a parameter `attrTypes`). -/
def getmod_page_indicators (attrTypes excludeEvents : List String)
    (attrs : List MispAttr) : Finset String :=
  attrs.foldl
    (fun indicators attr =>
      if attr.eventInfo ∈ excludeEvents ∨ attr.eventId ∈ excludeEvents then
        indicators
      else if attr.type = "domain|ip" then
        (splitPipe attr.value).foldl
          (fun acc ioc => if ioc = "" then acc else insert ioc acc) indicators
      else if attr.type ∈ attrTypes then insert attr.value indicators
      else indicators)
    ∅

/-- The `source_unique_iocs = source_unique_iocs - indicators` bookkeeping
of `get_modified_indicators` (src/misp/main.py, line 522), iterated over
the indicator sets of successive pages. -/
def getmod_remaining (s : Finset String) (pages : List (Finset String)) :
    Finset String :=
  pages.foldl (fun acc indicators => acc \ indicators) s

/-- The pagination loop of `MISPPlugin.retract_indicators`
(src/misp/main.py, lines 268-320): fetch page `page`; when the page holds
fewer attributes than `body["limit"]` set `last_page` and break, otherwise
increment `body["page"]` and fetch the next page.  `pageLens p` is the
attribute count of page `p`; the result is the page at which the loop
broke (equally, the number of pages fetched, the loop starting at page 1),
or `none` when `fuel` iterations did not reach a short page. -/
def retract_pages_run (limit : Nat) (pageLens : Nat → Nat) :
    Nat → Nat → Option Nat
  | 0, _ => none
  | fuel + 1, page =>
    if pageLens page < limit then some page
    else retract_pages_run limit pageLens fuel (page + 1)

/-- The pagination loop of `MISPPlugin._pull` (src/misp/main.py, lines
749-936): as `retract_pages_run`, except that `body["page"] += 1` runs
before the `last_page` break, so the result also carries the final value
of `body["page"]`. -/
def pull_pages_run (limit : Nat) (pageLens : Nat → Nat) :
    Nat → Nat → Option (Nat × Nat)
  | 0, _ => none
  | fuel + 1, page =>
    if pageLens page < limit then some (page, page + 1)
    else pull_pages_run limit pageLens fuel (page + 1)

/-- The pagination loop of `MISPPlugin.get_modified_indicators`
(src/misp/main.py, lines 475-531): fetch page `page`, subtract its
indicators from the remaining source set, and break when the page is
shorter than `body["limit"]` or when no source indicators remain
(`last_page or len(source_unique_iocs) == 0`).  Returns the break page and
the final remaining set. -/
def getmod_run (limit : Nat) (attrTypes excludeEvents : List String)
    (pages : Nat → List MispAttr) :
    Nat → Nat → Finset String → Option (Nat × Finset String)
  | 0, _, _ => none
  | fuel + 1, page, s =>
    let attrs := pages page
    let indicators := getmod_page_indicators attrTypes excludeEvents attrs
    let remaining := s \ indicators
    if attrs.length < limit ∨ remaining = ∅ then some (page, remaining)
    else getmod_run limit attrTypes excludeEvents pages fuel (page + 1)
      remaining

/-- The `domain|ip` component loop of `_pull` (src/misp/main.py, lines
850-871), running inside the per-attribute `try` of lines 831-903: an
empty component is skipped and counted; for a non-empty component the
pydantic `Indicator(...)` constructor runs — `createOk ioc` says whether
it succeeds.  A failing construction raises out of the loop into the
`except (ValidationError, Exception)` arm (lines 886-903), which counts a
single extra skip and abandons the rest of the attribute; the indicators
already appended from earlier components are kept (they went to the
page-level list before the raise). -/
def pull_components (createOk : String → Bool) :
    List String → List String × Nat → List String × Nat
  | [], acc => acc
  | ioc :: rest, acc =>
    if ioc = "" then pull_components createOk rest (acc.1, acc.2 + 1)
    else if createOk ioc then
      pull_components createOk rest (acc.1 ++ [ioc], acc.2)
    else (acc.1, acc.2 + 1)

/-- One attribute's contribution to a `_pull` page (src/misp/main.py,
lines 777-903), as the pair (created indicator values, skip count):
attributes of excluded events or of unsupported types contribute nothing,
and a supported attribute with an empty value is skipped at line 815.
Everything after that happens inside a `try` whose
`except (ValidationError, Exception)` arm (lines 886-903) counts one skip
for the attribute and moves on.  `datesOk` abstracts whether the
preprocessing inside the `try` succeeds (the decay-score comment and the
`datetime.fromisoformat` calls on `first_seen`/`last_seen`, lines
831-847; e.g. a malformed ISO timestamp raises there and the whole
attribute is skipped); `createOk v` abstracts whether `Indicator(value=v,
...)` is accepted by pydantic.  A `domain|ip` value is split on `|` and
handled by `pull_components`; every other supported attribute makes
exactly one indicator when its construction succeeds and one skip when it
raises.  (Indicator records are represented by their value; the per-type
`IndicatorType` tagging is not modelled.) -/
def pull_attr_indicators (attrTypes excludeEvents : List String)
    (datesOk : Bool) (createOk : String → Bool) (a : MispAttr) :
    List String × Nat :=
  if a.eventInfo ∈ excludeEvents ∨ a.eventId ∈ excludeEvents then ([], 0)
  else if a.type ∈ attrTypes then
    if a.value = "" then ([], 1)
    else if datesOk = false then ([], 1)
    else if a.type = "domain|ip" then
      pull_components createOk (splitPipe a.value) ([], 0)
    else if createOk a.value then ([a.value], 0)
    else ([], 1)
  else ([], 0)

/-- The batch slicing of `MISPPlugin.push` (src/misp/main.py, lines
1434-1435): `for i in range(0, len(attributes), BATCH_SIZE): payload =
attributes[i : i + BATCH_SIZE]`.  The batch size is `b + 1`: `BATCH_SIZE`
is a positive constant (with step 0 the Python `range` raises). -/
def push_chunks {α : Type} (b : Nat) : List α → List (List α)
  | [] => []
  | x :: xs =>
    (x :: xs).take (b + 1) :: push_chunks b ((x :: xs).drop (b + 1))
  termination_by l => l.length
  decreasing_by simp [List.length_drop]; omega

/-- The success/failure bookkeeping of `MISPPlugin.push` (src/misp/main.py,
lines 1433-1486): walk the batches in order; `flags i` is whether the
`_update_event`/`_create_event` call for the `i`-th batch succeeded; a
successful batch adds its whole length to `success_count`, a failed one to
`failed_count`.  Returns (batches processed, success_count, failed_count).
-/
def push_run {α : Type} (flags : Nat → Bool) (batches : List (List α)) :
    Nat × Nat × Nat :=
  batches.foldl
    (fun acc batch =>
      if flags acc.1
      then (acc.1 + 1, acc.2.1 + batch.length, acc.2.2)
      else (acc.1 + 1, acc.2.1, acc.2.2 + batch.length))
    (0, 0, 0)


/-- The ASCII characters of the regex whitespace class `\\s` used by
`remove_sensitive_info`'s pattern `password=[^&\\s]+`. -/
def pyWs (c : Char) : Bool :=
  c = ' ' ∨ c = '\t' ∨ c = '\n' ∨ c = '\r' ∨ c = '\x0B' ∨ c = '\x0C'

/-- A character matched by `[^&\\s]+`: anything but `&` and whitespace. -/
def isSens (c : Char) : Bool :=
  !(c = '&' : Bool) && !pyWs c

/-- The literal part `password=` of the pattern. -/
def pwPat : List Char := "password=".data

/-- The redaction text `<Password>` that replaces a matched value. -/
def redactedValue : List Char := "<Password>".data

/-- The full replacement text `password=<Password>` substituted for each
match of `password=[^&\\s]+`. -/
def redactTag : List Char := "password=<Password>".data

/-- `ForescoutPluginHelper.remove_sensitive_info`
(src/forescout_ztre/utils/helper.py, lines 571-583):
`re.sub(r"password=[^&\\s]+", "password=<Password>", data)` over the
character list of `data`.  `re.sub` scans left to right; where the pattern
does not match it emits one character and moves on; where it matches —
the literal `password=` followed by a maximal non-empty run of
non-`&`-non-whitespace characters — it emits the replacement text and
resumes after the match (non-overlapping). -/
def removeSensitiveInfo : List Char → List Char
  | [] => []
  | c :: rest =>
    if pwPat.isPrefixOf (c :: rest) then
      if ((c :: rest).drop pwPat.length).takeWhile isSens = [] then
        c :: removeSensitiveInfo rest
      else
        redactTag ++
          removeSensitiveInfo
            (((c :: rest).drop pwPat.length).dropWhile isSens)
    else c :: removeSensitiveInfo rest
  termination_by l => l.length
  decreasing_by
  · simp
  · simp only [List.length_cons]
    have h1 := (@List.dropWhile_sublist Char
      ((c :: rest).drop pwPat.length) isSens).length_le
    simp only [List.length_drop, List.length_cons] at h1
    have h2 : pwPat.length = 9 := rfl
    omega
  · simp

/-- The `String`-level sanitiser applied to every logged message and
traceback of the Forescout helper. -/
def remove_sensitive_info (data : String) : String :=
  ⟨removeSensitiveInfo data.data⟩

/-- A list that does not begin with a `[^&\\s]` character (so no match of
the pattern's value part can start at its head). -/
def NoSensHead : List Char → Prop
  | [] => True
  | c :: _ => isSens c = false

/-- Every occurrence of `password=` in the list that is followed by a
character the pattern's value part would match is in fact followed by
exactly the redaction text `<Password>` and then a non-matching character
(or the end): the sanitised text contains no un-redacted password value. -/
def RedactedTail (b : List Char) : Prop :=
  ∀ hd tl, b = hd :: tl → isSens hd = true →
    ∃ c, b = redactedValue ++ c ∧ NoSensHead c

/-- The redaction invariant of sanitised output, quantified over every
occurrence of `password=`. -/
def CleanOutput (out : List Char) : Prop :=
  ∀ a b, out = a ++ pwPat ++ b → RedactedTail b


/-- **C2.**  For every response passed to `handle_error`, the function either
returns the parsed JSON body (status 200 or 201; also 202 for VISO TRUST),
returns the empty dictionary (status 204), or raises the plugin-specific
exception; no status code falls through with neither a return value nor an
exception (the `retNone` outcome is never produced). -/
theorem handle_error_exhaustive (status : Nat) (parseOk isValidation : Bool) :
    (fs_handle_error status parseOk isValidation ≠ .retNone ∧
      viso_handle_error status parseOk ≠ .retNone) ∧
    (fs_handle_error status parseOk isValidation = .retJson ↔
      (status = 200 ∨ status = 201) ∧ parseOk = true) ∧
    (viso_handle_error status parseOk = .retJson ↔
      (status = 200 ∨ status = 201 ∨ status = 202) ∧ parseOk = true) ∧
    (fs_handle_error status parseOk isValidation = .retEmpty ↔ status = 204) ∧
    (viso_handle_error status parseOk = .retEmpty ↔ status = 204) := by
  unfold fs_handle_error viso_handle_error
  split_ifs <;> simp_all <;> omega

/-- Witness for `handle_error_exhaustive` at concrete inputs. -/
theorem handle_error_exhaustive_witness :
    fs_handle_error 204 true false = .retEmpty ∧
    viso_handle_error 202 true = .retJson := by
  refine ⟨?_, ?_⟩
  · exact ((handle_error_exhaustive 204 true false).2.2.2.1).mpr rfl
  · exact ((handle_error_exhaustive 202 true false).2.2.1).mpr (by simp)

/-- `handle_error` raises for every status outside its success set
(Forescout success set: 200, 201 with a JSON body, 204). -/
theorem fs_handle_error_raises {st : Nat} (p v : Bool)
    (h0 : st ≠ 200) (h1 : st ≠ 201) (h4 : st ≠ 204) :
    fs_handle_error st p v = .excRaised := by
  unfold fs_handle_error; split_ifs <;> simp_all

/-- `handle_error` raises for every status outside its success set
(VISO TRUST success set: 200, 201, 202 with a JSON body, 204). -/
theorem viso_handle_error_raises {st : Nat} (p : Bool)
    (h0 : st ≠ 200) (h1 : st ≠ 201) (h2 : st ≠ 202) (h4 : st ≠ 204) :
    viso_handle_error st p = .excRaised := by
  unfold viso_handle_error; split_ifs <;> simp_all

/-- A retryable status on a non-final attempt of the Forescout loop issues
one request, sleeps once, and continues with the next attempt. -/
theorem fs_step_retry (statuses : Nat → Nat) (parseOk : Nat → Bool)
    (regen handleErr : Bool) (idx r : Nat)
    (hret : retryableStatus (statuses idx)) :
    fs_api_loop statuses parseOk false regen handleErr idx (r + 2) =
      ((fs_api_loop statuses parseOk false regen handleErr (idx + 1) (r + 1)).1,
       (fs_api_loop statuses parseOk false regen handleErr (idx + 1) (r + 1)).2.1 + 1,
       (fs_api_loop statuses parseOk false regen handleErr (idx + 1) (r + 1)).2.2 + 1) := by
  unfold retryableStatus at hret
  conv_lhs => rw [fs_api_loop]
  have h401 : ¬ (statuses idx = 401 ∧ regen = true ∧ false = false) := by
    rcases hret with h | h <;> rintro ⟨h', -, -⟩ <;> omega
  rw [if_neg h401, if_pos ⟨hret, rfl⟩, if_neg (by omega : ¬ (r + 1 = 0))]

/-- A retryable status on the final permitted attempt of the Forescout loop
raises the plugin exception: one request, no sleep, no retry. -/
theorem fs_step_last (statuses : Nat → Nat) (parseOk : Nat → Bool)
    (regen handleErr : Bool) (idx : Nat)
    (hret : retryableStatus (statuses idx)) :
    fs_api_loop statuses parseOk false regen handleErr idx 1 =
      (.rateLimitRaise, 1, 0) := by
  unfold retryableStatus at hret
  conv_lhs => rw [fs_api_loop]
  have h401 : ¬ (statuses idx = 401 ∧ regen = true ∧ false = false) := by
    rcases hret with h | h <;> rintro ⟨h', -, -⟩ <;> omega
  rw [if_neg h401, if_pos ⟨hret, rfl⟩, if_pos rfl]

/-- A retryable status on a non-final attempt of the VISO TRUST loop issues
one request, sleeps once, and continues with the next attempt. -/
theorem viso_step_retry (statuses : Nat → Nat) (parseOk : Nat → Bool)
    (handleErr : Bool) (idx r : Nat)
    (hret : retryableStatus (statuses idx)) :
    viso_api_loop statuses parseOk false handleErr idx (r + 2) =
      ((viso_api_loop statuses parseOk false handleErr (idx + 1) (r + 1)).1,
       (viso_api_loop statuses parseOk false handleErr (idx + 1) (r + 1)).2.1 + 1,
       (viso_api_loop statuses parseOk false handleErr (idx + 1) (r + 1)).2.2 + 1) := by
  unfold retryableStatus at hret
  conv_lhs => rw [viso_api_loop]
  rw [if_pos ⟨hret, rfl⟩, if_neg (by omega : ¬ (r + 1 = 0))]

/-- A retryable status on the final permitted attempt of the VISO TRUST loop
raises the plugin exception: one request, no sleep, no retry. -/
theorem viso_step_last (statuses : Nat → Nat) (parseOk : Nat → Bool)
    (handleErr : Bool) (idx : Nat)
    (hret : retryableStatus (statuses idx)) :
    viso_api_loop statuses parseOk false handleErr idx 1 =
      (.rateLimitRaise, 1, 0) := by
  unfold retryableStatus at hret
  conv_lhs => rw [viso_api_loop]
  rw [if_pos ⟨hret, rfl⟩, if_pos rfl]

/-- A non-retryable status that is not a 2xx success and not the Forescout
401 re-authentication case makes the Forescout loop raise at once. -/
theorem fs_step_raise (statuses : Nat → Nat) (parseOk : Nat → Bool)
    (regen : Bool) (idx r : Nat)
    (hret : ¬ retryableStatus (statuses idx))
    (h2xx : ¬ (200 ≤ statuses idx ∧ statuses idx ≤ 299))
    (h401 : ¬ (statuses idx = 401 ∧ regen = true)) :
    fs_api_loop statuses parseOk false regen true idx (r + 1) =
      (.ret .excRaised, 1, 0) := by
  unfold retryableStatus at hret
  conv_lhs => rw [fs_api_loop]
  rw [if_neg (by tauto), if_neg (by tauto), if_pos rfl,
    fs_handle_error_raises _ _ (by omega) (by omega) (by omega)]

/-- A non-retryable status that is not a 2xx success makes the VISO TRUST
loop raise at once. -/
theorem viso_step_raise (statuses : Nat → Nat) (parseOk : Nat → Bool)
    (idx r : Nat)
    (hret : ¬ retryableStatus (statuses idx))
    (h2xx : ¬ (200 ≤ statuses idx ∧ statuses idx ≤ 299)) :
    viso_api_loop statuses parseOk false true idx (r + 1) =
      (.ret .excRaised, 1, 0) := by
  unfold retryableStatus at hret
  conv_lhs => rw [viso_api_loop]
  rw [if_neg (by tauto), if_pos rfl,
    viso_handle_error_raises _ (by omega) (by omega) (by omega) (by omega)]

/-- The Forescout loop never issues more requests than it has attempts. -/
theorem fs_loop_reqs_le (statuses : Nat → Nat) (parseOk : Nat → Bool)
    (isVal regen handleErr : Bool) :
    ∀ rem idx,
      (fs_api_loop statuses parseOk isVal regen handleErr idx rem).2.1 ≤ rem := by
  intro rem
  induction rem with
  | zero => intro idx; simp [fs_api_loop]
  | succ r ih =>
    intro idx
    rw [fs_api_loop]
    split_ifs <;> simp only []
    · exact Nat.le_add_left 1 r
    · exact Nat.le_add_left 1 r
    · exact Nat.succ_le_succ (ih (idx + 1))
    · exact Nat.le_add_left 1 r
    · exact Nat.le_add_left 1 r

/-- The VISO TRUST loop never issues more requests than it has attempts. -/
theorem viso_loop_reqs_le (statuses : Nat → Nat) (parseOk : Nat → Bool)
    (isVal handleErr : Bool) :
    ∀ rem idx,
      (viso_api_loop statuses parseOk isVal handleErr idx rem).2.1 ≤ rem := by
  intro rem
  induction rem with
  | zero => intro idx; simp [viso_api_loop]
  | succ r ih =>
    intro idx
    rw [viso_api_loop]
    split_ifs <;> simp only []
    · exact Nat.le_add_left 1 r
    · exact Nat.succ_le_succ (ih (idx + 1))
    · exact Nat.le_add_left 1 r
    · exact Nat.le_add_left 1 r

/-- The Forescout loop repeats with exactly-once token regeneration when
every response is retryable: all-retryable streams exhaust the attempt
budget with one request per attempt and one sleep between attempts. -/
theorem fs_loop_all_retry (statuses : Nat → Nat) (parseOk : Nat → Bool)
    (regen handleErr : Bool) (hall : ∀ k, retryableStatus (statuses k)) :
    ∀ rem idx, 0 < rem →
      fs_api_loop statuses parseOk false regen handleErr idx rem =
        (.rateLimitRaise, rem, rem - 1) := by
  intro rem
  induction rem with
  | zero => intro idx h; omega
  | succ r ih =>
    intro idx _
    cases r with
    | zero => exact fs_step_last statuses parseOk regen handleErr idx (hall idx)
    | succ r' =>
      rw [fs_step_retry statuses parseOk regen handleErr idx r' (hall idx),
        ih (idx + 1) (by omega)]
      simp

/-- An all-retryable response stream makes the VISO TRUST loop exhaust the
attempt budget and raise, with one request per attempt. -/
theorem viso_loop_all_retry (statuses : Nat → Nat) (parseOk : Nat → Bool)
    (handleErr : Bool) (hall : ∀ k, retryableStatus (statuses k)) :
    ∀ rem idx, 0 < rem →
      viso_api_loop statuses parseOk false handleErr idx rem =
        (.rateLimitRaise, rem, rem - 1) := by
  intro rem
  induction rem with
  | zero => intro idx h; omega
  | succ r ih =>
    intro idx _
    cases r with
    | zero => exact viso_step_last statuses parseOk handleErr idx (hall idx)
    | succ r' =>
      rw [viso_step_retry statuses parseOk handleErr idx r' (hall idx),
        ih (idx + 1) (by omega)]
      simp

/-- With `regenerate_auth_token=False` the Forescout loop never takes the
401 re-authentication branch. -/
theorem fs_loop_no_reauth (statuses : Nat → Nat) (parseOk : Nat → Bool)
    (isVal handleErr : Bool) :
    ∀ rem idx k,
      (fs_api_loop statuses parseOk isVal false handleErr idx rem).1 ≠
        .reauth k := by
  intro rem
  induction rem with
  | zero => intro idx k; simp [fs_api_loop]
  | succ r ih =>
    intro idx k
    rw [fs_api_loop]
    split_ifs <;> first | exact ih (idx + 1) k | simp_all

/-- **C1, counterexample.**  The claim "a retryable status (429 or 5xx)
sleeps and retries; every other non-2xx status raises immediately, with no
retry and no sleep" is false on the code at two concrete inputs: a 401
answered to a Forescout call with token regeneration enabled leads to a
second request instead of an immediate raise, and a 600 status — which is
neither 429 nor 5xx — is retried with three sleeps by the VISO TRUST loop
(the source condition is `500 <= status_code <= 600`, inclusive). -/
theorem api_helper_c1_counterexample :
    (¬ (401 = 429 ∨ (500 ≤ 401 ∧ 401 ≤ 599)) ∧
     ¬ (600 = 429 ∨ (500 ≤ 600 ∧ 600 ≤ 599))) ∧
    fs_api_helper 4 (fun _ => 401) (fun _ => true) false true true true 0 =
      (.ret .excRaised, 2, 0) ∧
    viso_api_loop (fun _ => 600) (fun _ => true) false true 0 4 =
      (.rateLimitRaise, 4, 3) := by
  refine ⟨⟨by omega, by omega⟩, ?_, by decide⟩
  simp [fs_api_helper]
  decide

/-- **C1 (amended).**  Outside validation mode, a status the code treats as
retryable (429, or 500–600 inclusive) makes both helpers sleep once and
retry on every non-final attempt and raise the plugin exception on the
final permitted attempt; every other non-2xx status, with status handling
enabled, raises the plugin-specific exception immediately — one request,
no sleep — except a 401 received by the Forescout helper with token
regeneration enabled, which leaves the loop through the one-shot
re-authentication path instead. -/
theorem api_helper_retry_or_immediate_raise (statuses : Nat → Nat)
    (parseOk : Nat → Bool) (regen handleErr : Bool) (idx r : Nat) :
    (retryableStatus (statuses idx) →
      fs_api_loop statuses parseOk false regen handleErr idx (r + 2) =
        ((fs_api_loop statuses parseOk false regen handleErr (idx + 1) (r + 1)).1,
         (fs_api_loop statuses parseOk false regen handleErr (idx + 1) (r + 1)).2.1 + 1,
         (fs_api_loop statuses parseOk false regen handleErr (idx + 1) (r + 1)).2.2 + 1) ∧
      viso_api_loop statuses parseOk false handleErr idx (r + 2) =
        ((viso_api_loop statuses parseOk false handleErr (idx + 1) (r + 1)).1,
         (viso_api_loop statuses parseOk false handleErr (idx + 1) (r + 1)).2.1 + 1,
         (viso_api_loop statuses parseOk false handleErr (idx + 1) (r + 1)).2.2 + 1) ∧
      fs_api_loop statuses parseOk false regen handleErr idx 1 =
        (.rateLimitRaise, 1, 0) ∧
      viso_api_loop statuses parseOk false handleErr idx 1 =
        (.rateLimitRaise, 1, 0)) ∧
    (¬ retryableStatus (statuses idx) →
      ¬ (200 ≤ statuses idx ∧ statuses idx ≤ 299) →
      (¬ (statuses idx = 401 ∧ regen = true) →
        fs_api_loop statuses parseOk false regen true idx (r + 1) =
          (.ret .excRaised, 1, 0)) ∧
      viso_api_loop statuses parseOk false true idx (r + 1) =
        (.ret .excRaised, 1, 0) ∧
      (statuses idx = 401 ∧ regen = true →
        fs_api_loop statuses parseOk false regen handleErr idx (r + 1) =
          (.reauth idx, 1, 0))) := by
  constructor
  · intro hret
    exact ⟨fs_step_retry statuses parseOk regen handleErr idx r hret,
      viso_step_retry statuses parseOk handleErr idx r hret,
      fs_step_last statuses parseOk regen handleErr idx hret,
      viso_step_last statuses parseOk handleErr idx hret⟩
  · intro hret h2xx
    refine ⟨fun h401 => fs_step_raise statuses parseOk regen idx r hret h2xx h401,
      viso_step_raise statuses parseOk idx r hret h2xx, fun h401 => ?_⟩
    rw [fs_api_loop]
    rw [if_pos ⟨h401.1, h401.2, rfl⟩]

/-- Witness for `api_helper_retry_or_immediate_raise` at concrete inputs. -/
theorem api_helper_retry_or_immediate_raise_witness :
    fs_api_loop (fun _ => 429) (fun _ => true) false true true 0 1 =
      (.rateLimitRaise, 1, 0) ∧
    viso_api_loop (fun _ => 404) (fun _ => true) false true 0 4 =
      (.ret .excRaised, 1, 0) := by
  constructor
  · exact ((api_helper_retry_or_immediate_raise (fun _ => 429) (fun _ => true)
      true true 0 0).1 (by unfold retryableStatus; omega)).2.2.1
  · exact ((api_helper_retry_or_immediate_raise (fun _ => 404) (fun _ => true)
      true true 0 3).2 (by unfold retryableStatus; omega) (by omega)).2.1

/-- **C3.**  At most `MAX_API_CALLS` HTTP requests are issued by the retry
loop of each `api_helper` call; a retryable status received on the final
permitted attempt raises the plugin exception instead of issuing another
request, and an all-retryable stream stops after exactly `MAX_API_CALLS`
requests. -/
theorem api_helper_max_calls_bound (maxCalls : Nat) (statuses : Nat → Nat)
    (parseOk : Nat → Bool) (isVal regen handleErr : Bool) (idx : Nat) :
    ((fs_api_loop statuses parseOk isVal regen handleErr idx maxCalls).2.1 ≤
        maxCalls ∧
     (viso_api_loop statuses parseOk isVal handleErr idx maxCalls).2.1 ≤
        maxCalls) ∧
    (retryableStatus (statuses idx) →
      fs_api_loop statuses parseOk false regen handleErr idx 1 =
        (.rateLimitRaise, 1, 0) ∧
      viso_api_loop statuses parseOk false handleErr idx 1 =
        (.rateLimitRaise, 1, 0)) ∧
    ((∀ k, retryableStatus (statuses k)) → 0 < maxCalls →
      fs_api_loop statuses parseOk false regen handleErr idx maxCalls =
        (.rateLimitRaise, maxCalls, maxCalls - 1) ∧
      viso_api_loop statuses parseOk false handleErr idx maxCalls =
        (.rateLimitRaise, maxCalls, maxCalls - 1)) := by
  refine ⟨⟨fs_loop_reqs_le statuses parseOk isVal regen handleErr maxCalls idx,
    viso_loop_reqs_le statuses parseOk isVal handleErr maxCalls idx⟩,
    fun hret => ⟨fs_step_last statuses parseOk regen handleErr idx hret,
      viso_step_last statuses parseOk handleErr idx hret⟩,
    fun hall hpos =>
      ⟨fs_loop_all_retry statuses parseOk regen handleErr hall maxCalls idx hpos,
       viso_loop_all_retry statuses parseOk handleErr hall maxCalls idx hpos⟩⟩

/-- Witness for `api_helper_max_calls_bound` at concrete inputs. -/
theorem api_helper_max_calls_bound_witness :
    (fs_api_loop (fun _ => 503) (fun _ => true) false true true 0 4).2.1 ≤ 4 ∧
    fs_api_loop (fun _ => 503) (fun _ => true) false true true 0 4 =
      (.rateLimitRaise, 4, 3) ∧
    viso_api_loop (fun _ => 503) (fun _ => true) false true 0 4 =
      (.rateLimitRaise, 4, 3) := by
  have h := api_helper_max_calls_bound 4 (fun _ => 503) (fun _ => true)
    false true true 0
  have hall : ∀ k : Nat, retryableStatus ((fun _ => 503) k) := by
    intro k; show retryableStatus 503; unfold retryableStatus; omega
  exact ⟨h.1.1, (h.2.2 hall (by omega)).1, (h.2.2 hall (by omega)).2⟩

/-- **C9.**  Forescout `api_helper` regenerates the authentication token at
most once per top-level call: with `regenerate_auth_token=False` the loop
never takes the re-authentication branch, so on an all-401 stream the
top-level call issues exactly two loop requests — the second consecutive
401 is routed to `handle_error`, which raises — bounding the recursion
depth at two. -/
theorem fs_reauth_at_most_once (maxCalls : Nat) (statuses : Nat → Nat)
    (parseOk : Nat → Bool) (isVal handleErr : Bool) (rem idx k : Nat) :
    ((fs_api_loop statuses parseOk isVal false handleErr idx rem).1 ≠
      .reauth k) ∧
    (0 < maxCalls → (∀ j, statuses j = 401) →
      fs_api_helper maxCalls statuses parseOk false true true true 0 =
        (.ret .excRaised, 2, 0)) := by
  refine ⟨fs_loop_no_reauth statuses parseOk isVal handleErr rem idx k, ?_⟩
  intro hpos hall
  cases maxCalls with
  | zero => omega
  | succ m =>
    have hl1 : fs_api_loop statuses parseOk false true true 0 (m + 1) =
        (.reauth 0, 1, 0) := by
      rw [fs_api_loop]
      rw [if_pos ⟨hall 0, rfl, rfl⟩]
    have hl2 : fs_api_loop statuses parseOk false false true 1 (m + 1) =
        (.ret .excRaised, 1, 0) := by
      rw [fs_api_loop]
      rw [if_neg (by simp), if_neg (by rw [hall 1]; rintro ⟨h, -⟩; omega),
        if_pos rfl, hall 1,
        fs_handle_error_raises _ _ (by omega) (by omega) (by omega)]
    rw [fs_api_helper.eq_1]
    simp only [hl1]
    rw [fs_api_helper.eq_1]
    simp only [hl2]
    simp

/-- Witness for `fs_reauth_at_most_once` at concrete inputs. -/
theorem fs_reauth_at_most_once_witness :
    ((fs_api_loop (fun _ => 401) (fun _ => true) false false true 0 4).1 ≠
      .reauth 0) ∧
    fs_api_helper 4 (fun _ => 401) (fun _ => true) false true true true 0 =
      (.ret .excRaised, 2, 0) := by
  have h := fs_reauth_at_most_once 4 (fun _ => 401) (fun _ => true)
    false true 4 0 0
  exact ⟨h.1, h.2 (by omega) (fun j => rfl)⟩

/-- **C6.**  Every failure mode of `api_helper` and `parse_response` —
connection error, proxy error, HTTP error, JSON decode error, and any
unexpected exception — is caught and re-raised as the single
plugin-specific exception type (`ForescoutPluginException` for Forescout,
`VisoTrustException` for VISO TRUST), and every failure mode other than an
already-wrapped plugin exception is also logged; no exception class in the
`Exception` hierarchy escapes these functions unhandled. -/
theorem plugin_exception_wraps_all (e : ExcClass) :
    ((runExceptChain fs_api_helper_chain e).map Prod.snd =
      some .forescoutExc) ∧
    ((runExceptChain fs_parse_response_chain e).map Prod.snd =
      some .forescoutExc) ∧
    ((runExceptChain viso_api_helper_chain e).map Prod.snd =
      some .visoTrustExc) ∧
    ((runExceptChain viso_parse_response_chain e).map Prod.snd =
      some .visoTrustExc) ∧
    (e ≠ .forescoutExc → e ≠ .visoTrustExc →
      runExceptChain fs_api_helper_chain e = some (true, .forescoutExc) ∧
      runExceptChain viso_api_helper_chain e = some (true, .visoTrustExc)) := by
  revert e; decide

/-- Witness for `plugin_exception_wraps_all` at a concrete exception. -/
theorem plugin_exception_wraps_all_witness :
    runExceptChain fs_api_helper_chain .proxyError =
      some (true, .forescoutExc) ∧
    runExceptChain viso_api_helper_chain .jsonDecodeError =
      some (true, .visoTrustExc) := by
  constructor
  · exact ((plugin_exception_wraps_all .proxyError).2.2.2.2
      (by decide) (by decide)).1
  · exact ((plugin_exception_wraps_all .jsonDecodeError).2.2.2.2
      (by decide) (by decide)).2

/-- Folding set difference over a page list is the single set difference
with the union of the pages. -/
theorem foldl_sdiff_eq (pages : List (Finset String)) :
    ∀ s t : Finset String,
      pages.foldl (fun acc indicators => acc \ indicators) (s \ t) =
        s \ pages.foldl (fun acc indicators => acc ∪ indicators) t := by
  induction pages with
  | nil => intro s t; rfl
  | cons i rest ih =>
    intro s t
    simp only [List.foldl_cons]
    rw [show (s \ t) \ i = s \ (t ∪ i) from by rw [sdiff_sdiff]; rfl, ih]

/-- `getmod_remaining` is the set difference with the union of all pages. -/
theorem getmod_remaining_sdiff (pages : List (Finset String))
    (s : Finset String) :
    getmod_remaining s pages =
      s \ pages.foldl (fun acc indicators => acc ∪ indicators) ∅ := by
  have h := foldl_sdiff_eq pages s ∅
  rw [Finset.sdiff_empty] at h
  exact h

/-- **C5.**  The set-difference filtering in `get_modified_indicators` that
removes already-present indicators from the source set is idempotent: for
every source set `s` and the indicator set of any pulled page,
`(s - I) - I = s - I`; and running the whole page sequence again over its
own result changes nothing, so repeated calls with the same source
indicators and the same pulled pages yield the same retracted indicator
values. -/
theorem getmod_filtering_idempotent (attrTypes excludeEvents : List String)
    (s : Finset String) (page : List MispAttr)
    (pages : List (List MispAttr)) :
    ((s \ getmod_page_indicators attrTypes excludeEvents page) \
        getmod_page_indicators attrTypes excludeEvents page =
      s \ getmod_page_indicators attrTypes excludeEvents page) ∧
    getmod_remaining
        (getmod_remaining s
          (pages.map (getmod_page_indicators attrTypes excludeEvents)))
        (pages.map (getmod_page_indicators attrTypes excludeEvents)) =
      getmod_remaining s
        (pages.map (getmod_page_indicators attrTypes excludeEvents)) := by
  constructor
  · exact sdiff_idem
  · rw [getmod_remaining_sdiff, getmod_remaining_sdiff]
    exact sdiff_idem

/-- With every construction succeeding, the component loop accumulates
exactly the non-empty components and counts exactly the empty ones. -/
theorem pull_components_ok (createOk : String → Bool) :
    ∀ (l : List String) (acc : List String × Nat),
      (∀ c ∈ l, c ≠ "" → createOk c = true) →
      pull_components createOk l acc =
        (acc.1 ++ l.filter (fun c => ¬ c = ""),
         acc.2 + (l.filter (fun c => c = "")).length) := by
  intro l
  induction l with
  | nil => intro acc _; simp [pull_components]
  | cons x xs ih =>
    intro acc hok
    by_cases hx : x = ""
    · rw [pull_components, if_pos hx,
        ih _ (fun c hc hne => hok c (List.mem_cons_of_mem _ hc) hne)]
      simp [hx]
      omega
    · have hcx : createOk x = true := hok x (List.mem_cons_self _ _) hx
      rw [pull_components, if_neg hx, if_pos hcx,
        ih _ (fun c hc hne => hok c (List.mem_cons_of_mem _ hc) hne)]
      simp [hx]

/-- A failing component aborts the loop through the `except` arm: the
non-empty components before it are kept, its empty components stay
counted, and the raise adds one extra skip; the rest of the attribute is
abandoned. -/
theorem pull_components_abort (createOk : String → Bool) :
    ∀ (pre : List String) (bad : String) (rest : List String)
      (acc : List String × Nat),
      (∀ c ∈ pre, c ≠ "" → createOk c = true) →
      bad ≠ "" → createOk bad = false →
      pull_components createOk (pre ++ bad :: rest) acc =
        (acc.1 ++ pre.filter (fun c => ¬ c = ""),
         acc.2 + (pre.filter (fun c => c = "")).length + 1) := by
  intro pre
  induction pre with
  | nil =>
    intro bad rest acc _ hbad hcb
    rw [List.nil_append, pull_components, if_neg hbad,
      if_neg (by simp [hcb])]
    simp
  | cons x xs ih =>
    intro bad rest acc hok hbad hcb
    by_cases hx : x = ""
    · rw [List.cons_append, pull_components, if_pos hx,
        ih bad rest _ (fun c hc hne => hok c (List.mem_cons_of_mem _ hc) hne)
          hbad hcb]
      simp [hx]
      omega
    · have hcx : createOk x = true := hok x (List.mem_cons_self _ _) hx
      rw [List.cons_append, pull_components, if_neg hx, if_pos hcx,
        ih bad rest _ (fun c hc hne => hok c (List.mem_cons_of_mem _ hc) hne)
          hbad hcb]
      simp [hx]

/-- **C8, counterexample.**  The claim "every other supported attribute
type yields exactly one indicator" is false on the code: inside `_pull`'s
per-attribute `try`, `except (ValidationError, Exception)`
(src/misp/main.py, lines 886-903) skips the attribute whenever indicator
construction fails — a pydantic `ValidationError` from `Indicator(...)`,
or `datetime.fromisoformat` raising on a malformed `first_seen` (line
842).  A supported, non-excluded `md5` attribute with the non-empty value
`abc` then yields zero indicators and one skip, not one indicator. -/
theorem pull_attr_c8_counterexample :
    pull_attr_indicators ["md5"] [] true (fun _ => false)
        ⟨"ev", "1", "md5", "abc"⟩ = ([], 1) ∧
    pull_attr_indicators ["md5"] [] false (fun _ => true)
        ⟨"ev", "1", "md5", "abc"⟩ = ([], 1) ∧
    (([], 1) : List String × Nat) ≠ (["abc"], 0) := by
  refine ⟨by decide, by decide, by decide⟩

/-- **C8 (amended).**  In the MISP pull, one vendor attribute maps to zero
or more indicator records: a supported, non-excluded attribute with an
empty (or missing) value yields zero indicators and one skip; an
attribute whose decay-comment/timestamp preprocessing raises inside the
`try` is skipped as a whole; a `domain|ip` attribute yields one indicator
per non-empty `|`-separated component (and one skip per empty component)
as long as every construction succeeds, while a failing component keeps
the indicators already created, adds one extra skip, and abandons the
rest of the attribute; every other supported attribute yields exactly one
indicator when its construction succeeds, and zero indicators plus one
skip when it raises. -/
theorem pull_attribute_multiplicity (attrTypes excludeEvents : List String)
    (datesOk : Bool) (createOk : String → Bool) (a : MispAttr)
    (hexc : ¬ (a.eventInfo ∈ excludeEvents ∨ a.eventId ∈ excludeEvents))
    (htype : a.type ∈ attrTypes) :
    (a.value = "" →
      pull_attr_indicators attrTypes excludeEvents datesOk createOk a =
        ([], 1)) ∧
    (a.value ≠ "" → datesOk = false →
      pull_attr_indicators attrTypes excludeEvents datesOk createOk a =
        ([], 1)) ∧
    (a.value ≠ "" → datesOk = true → a.type = "domain|ip" →
      (∀ c ∈ splitPipe a.value, c ≠ "" → createOk c = true) →
      pull_attr_indicators attrTypes excludeEvents datesOk createOk a =
        ((splitPipe a.value).filter (fun c => ¬ c = ""),
         ((splitPipe a.value).filter (fun c => c = "")).length)) ∧
    (a.value ≠ "" → datesOk = true → a.type = "domain|ip" →
      ∀ pre bad rest, splitPipe a.value = pre ++ bad :: rest →
        (∀ c ∈ pre, c ≠ "" → createOk c = true) → bad ≠ "" →
        createOk bad = false →
        pull_attr_indicators attrTypes excludeEvents datesOk createOk a =
          (pre.filter (fun c => ¬ c = ""),
           (pre.filter (fun c => c = "")).length + 1)) ∧
    (a.value ≠ "" → datesOk = true → a.type ≠ "domain|ip" →
      (createOk a.value = true →
        pull_attr_indicators attrTypes excludeEvents datesOk createOk a =
          ([a.value], 0)) ∧
      (createOk a.value = false →
        pull_attr_indicators attrTypes excludeEvents datesOk createOk a =
          ([], 1))) := by
  unfold pull_attr_indicators
  refine ⟨fun hv => ?_, fun hv hdk => ?_, fun hv hdk hd hok => ?_,
    fun hv hdk hd pre bad rest hsplit hok hbad hcb => ?_,
    fun hv hdk hd => ⟨fun hcv => ?_, fun hcv => ?_⟩⟩
  · rw [if_neg hexc, if_pos htype, if_pos hv]
  · rw [if_neg hexc, if_pos htype, if_neg hv, if_pos hdk]
  · rw [if_neg hexc, if_pos htype, if_neg hv, if_neg (by simp [hdk]),
      if_pos hd, pull_components_ok createOk _ _ hok]
    simp
  · rw [if_neg hexc, if_pos htype, if_neg hv, if_neg (by simp [hdk]),
      if_pos hd, hsplit, pull_components_abort createOk pre bad rest _
        hok hbad hcb]
    simp
  · rw [if_neg hexc, if_pos htype, if_neg hv, if_neg (by simp [hdk]),
      if_neg hd, if_pos hcv]
  · rw [if_neg hexc, if_pos htype, if_neg hv, if_neg (by simp [hdk]),
      if_neg hd, if_neg (by simp [hcv])]

/-- Witness for `pull_attribute_multiplicity` at concrete attributes. -/
theorem pull_attribute_multiplicity_witness :
    pull_attr_indicators ["domain|ip", "md5"] [] true (fun _ => true)
        ⟨"ev", "1", "domain|ip", "example.com|1.2.3.4"⟩ =
      (["example.com", "1.2.3.4"], 0) ∧
    pull_attr_indicators ["domain|ip", "md5"] [] true (fun _ => true)
        ⟨"ev", "1", "md5", ""⟩ = ([], 1) := by
  constructor
  · have h := (pull_attribute_multiplicity ["domain|ip", "md5"] [] true
      (fun _ => true) ⟨"ev", "1", "domain|ip", "example.com|1.2.3.4"⟩
      (by simp) (by simp)).2.2.1 (by simp) rfl rfl
      (fun c hc hne => rfl)
    rw [h]
    decide
  · exact (pull_attribute_multiplicity ["domain|ip", "md5"] [] true
      (fun _ => true) ⟨"ev", "1", "md5", ""⟩ (by simp) (by simp)).1 rfl

/-- Concatenating the push batches gives back the attribute list. -/
theorem push_chunks_join {α : Type} (b : Nat) :
    ∀ (n : Nat) (l : List α), l.length ≤ n →
      (push_chunks b l).flatten = l := by
  intro n
  induction n with
  | zero =>
    intro l hl
    cases l with
    | nil => simp [push_chunks]
    | cons x xs => simp at hl
  | succ n ih =>
    intro l hl
    cases l with
    | nil => simp [push_chunks]
    | cons x xs =>
      rw [push_chunks]
      simp only [List.flatten_cons]
      rw [ih ((x :: xs).drop (b + 1))
        (by simp only [List.length_drop, List.length_cons] at hl ⊢; omega)]
      exact List.take_append_drop (b + 1) (x :: xs)

/-- Every push batch is non-empty and no longer than the batch size. -/
theorem push_chunks_mem {α : Type} (b : Nat) :
    ∀ (n : Nat) (l : List α) (c : List α), l.length ≤ n →
      c ∈ push_chunks b l → c.length ≤ b + 1 ∧ c ≠ [] := by
  intro n
  induction n with
  | zero =>
    intro l c hl hc
    cases l with
    | nil => simp [push_chunks] at hc
    | cons x xs => simp at hl
  | succ n ih =>
    intro l c hl hc
    cases l with
    | nil => simp [push_chunks] at hc
    | cons x xs =>
      rw [push_chunks] at hc
      rcases List.mem_cons.mp hc with h | h
      · subst h
        constructor
        · simpa using List.length_take_le (b + 1) (x :: xs)
        · simp
      · exact ih ((x :: xs).drop (b + 1)) c
          (by simp only [List.length_drop, List.length_cons] at hl ⊢; omega) h

/-- The success and failure counters of the push fold sum to the total
length of the processed batches. -/
theorem push_run_total_aux {α : Type} (flags : Nat → Bool) :
    ∀ (batches : List (List α)) (acc : Nat × Nat × Nat),
      (batches.foldl
        (fun acc batch =>
          if flags acc.1
          then (acc.1 + 1, acc.2.1 + batch.length, acc.2.2)
          else (acc.1 + 1, acc.2.1, acc.2.2 + batch.length))
        acc).2.1 +
      (batches.foldl
        (fun acc batch =>
          if flags acc.1
          then (acc.1 + 1, acc.2.1 + batch.length, acc.2.2)
          else (acc.1 + 1, acc.2.1, acc.2.2 + batch.length))
        acc).2.2 =
      acc.2.1 + acc.2.2 + (batches.map List.length).sum := by
  intro batches
  induction batches with
  | nil => intro acc; simp
  | cons batch rest ih =>
    intro acc
    simp only [List.foldl_cons, List.map_cons, List.sum_cons]
    by_cases hf : flags acc.1
    · rw [if_pos hf, ih]
      simp
      omega
    · rw [if_neg hf, ih]
      simp
      omega

/-- **C10.**  In MISP push, the built attribute list is partitioned into
consecutive non-empty batches of at most `BATCH_SIZE` (`= b + 1`) whose
concatenation is the original list; each batch is counted entirely as a
success or entirely as a failure, and when the loop finishes
`success_count + failed_count` equals the total number of attributes. -/
theorem push_batching_partition {α : Type} (b : Nat) (attrs : List α)
    (flags : Nat → Bool) :
    (∀ c ∈ push_chunks b attrs, c.length ≤ b + 1 ∧ c ≠ []) ∧
    (push_chunks b attrs).flatten = attrs ∧
    (push_run flags (push_chunks b attrs)).2.1 +
      (push_run flags (push_chunks b attrs)).2.2 = attrs.length := by
  refine ⟨fun c hc => push_chunks_mem b attrs.length attrs c le_rfl hc,
    push_chunks_join b attrs.length attrs le_rfl, ?_⟩
  unfold push_run
  rw [push_run_total_aux]
  simp only [Nat.zero_add]
  rw [← List.length_flatten, push_chunks_join b attrs.length attrs le_rfl]

/-- Witness for `push_batching_partition` at a concrete batch run. -/
theorem push_batching_partition_witness :
    (push_run (fun i => decide (i = 0)) (push_chunks 1 ["a", "b", "c"])).2.1 +
      (push_run (fun i => decide (i = 0)) (push_chunks 1 ["a", "b", "c"])).2.2 =
      3 ∧
    (push_chunks 1 ["a", "b", "c"]).flatten = ["a", "b", "c"] := by
  have h := push_batching_partition 1 ["a", "b", "c"]
    (fun i => decide (i = 0))
  exact ⟨h.2.2, h.2.1⟩

/-- The retraction loop stops exactly at the first page shorter than the
page size: pages `page, …, n` are fetched and the loop breaks at `n`. -/
theorem retract_first_short (limit : Nat) (pageLens : Nat → Nat) (n : Nat)
    (hshort : pageLens n < limit) :
    ∀ (fuel page : Nat), page ≤ n → n - page < fuel →
      (∀ k, page ≤ k → k < n → limit ≤ pageLens k) →
      retract_pages_run limit pageLens fuel page = some n := by
  intro fuel
  induction fuel with
  | zero => intro page h1 h2 h3; omega
  | succ f ih =>
    intro page h1 h2 h3
    rw [retract_pages_run]
    by_cases hp : page = n
    · subst hp; rw [if_pos hshort]
    · rw [if_neg (by have := h3 page le_rfl (by omega); omega)]
      exact ih (page + 1) (by omega) (by omega)
        (fun k hk1 hk2 => h3 k (by omega) hk2)

/-- The `_pull` loop stops exactly at the first page shorter than the page
size, with `body["page"]` left at `n + 1`. -/
theorem pull_first_short (limit : Nat) (pageLens : Nat → Nat) (n : Nat)
    (hshort : pageLens n < limit) :
    ∀ (fuel page : Nat), page ≤ n → n - page < fuel →
      (∀ k, page ≤ k → k < n → limit ≤ pageLens k) →
      pull_pages_run limit pageLens fuel page = some (n, n + 1) := by
  intro fuel
  induction fuel with
  | zero => intro page h1 h2 h3; omega
  | succ f ih =>
    intro page h1 h2 h3
    rw [pull_pages_run]
    by_cases hp : page = n
    · subst hp; rw [if_pos hshort]
    · rw [if_neg (by have := h3 page le_rfl (by omega); omega)]
      exact ih (page + 1) (by omega) (by omega)
        (fun k hk1 hk2 => h3 k (by omega) hk2)

/-- **C4, counterexample.**  The claim "the loop terminates exactly when a
response page contains fewer attributes than the requested page size, and
after a full-size page the next page is fetched" fails for
`get_modified_indicators`: with page size 2, a first page holding exactly
2 attributes (not fewer) whose values cover the whole source set makes the
loop break after page 1 without fetching page 2, because the remaining
source set became empty. -/
theorem misp_pagination_c4_counterexample :
    ((fun n => if n = 1
        then [⟨"ev", "1", "md5", "aaa"⟩, ⟨"ev", "1", "md5", "bbb"⟩]
        else ([] : List MispAttr)) 1).length = 2 ∧
    getmod_run 2 ["md5"] []
      (fun n => if n = 1
        then [⟨"ev", "1", "md5", "aaa"⟩, ⟨"ev", "1", "md5", "bbb"⟩]
        else ([] : List MispAttr))
      5 1 {"aaa"} = some (1, ∅) := by
  constructor
  · rfl
  · decide

/-- **C4 (amended).**  The `retract_indicators` and `_pull` pagination
loops terminate exactly at the first response page shorter than
`body["limit"]`: a short page is the last one fetched, and after a
full-size page the page counter is incremented and the next page fetched.
The `get_modified_indicators` loop breaks at a short page as well, but
additionally breaks after any page — full-size or not — that leaves the
remaining source set empty; only a full-size page with a non-empty
remaining set leads to the next fetch. -/
theorem misp_pagination_terminates (limit : Nat) (pageLens : Nat → Nat)
    (attrTypes excludeEvents : List String) (pages : Nat → List MispAttr)
    (fuel page n : Nat) (s : Finset String) :
    (pageLens page < limit →
      retract_pages_run limit pageLens (fuel + 1) page = some page ∧
      pull_pages_run limit pageLens (fuel + 1) page = some (page, page + 1)) ∧
    (¬ pageLens page < limit →
      retract_pages_run limit pageLens (fuel + 1) page =
        retract_pages_run limit pageLens fuel (page + 1) ∧
      pull_pages_run limit pageLens (fuel + 1) page =
        pull_pages_run limit pageLens fuel (page + 1)) ∧
    (page ≤ n → n - page < fuel → pageLens n < limit →
      (∀ k, page ≤ k → k < n → limit ≤ pageLens k) →
      retract_pages_run limit pageLens fuel page = some n ∧
      pull_pages_run limit pageLens fuel page = some (n, n + 1)) ∧
    ((pages page).length < limit →
      getmod_run limit attrTypes excludeEvents pages (fuel + 1) page s =
        some (page,
          s \ getmod_page_indicators attrTypes excludeEvents (pages page))) ∧
    (s \ getmod_page_indicators attrTypes excludeEvents (pages page) = ∅ →
      getmod_run limit attrTypes excludeEvents pages (fuel + 1) page s =
        some (page, ∅)) ∧
    (¬ (pages page).length < limit →
      s \ getmod_page_indicators attrTypes excludeEvents (pages page) ≠ ∅ →
      getmod_run limit attrTypes excludeEvents pages (fuel + 1) page s =
        getmod_run limit attrTypes excludeEvents pages fuel (page + 1)
          (s \ getmod_page_indicators attrTypes excludeEvents (pages page))) := by
  refine ⟨fun hshort => ?_, fun hfull => ?_, fun h1 h2 h3 h4 =>
      ⟨retract_first_short limit pageLens n h3 fuel page h1 h2 h4,
       pull_first_short limit pageLens n h3 fuel page h1 h2 h4⟩,
    fun hshort => ?_, fun hempty => ?_, fun hfull hne => ?_⟩
  · exact ⟨by rw [retract_pages_run, if_pos hshort],
      by rw [pull_pages_run, if_pos hshort]⟩
  · exact ⟨by rw [retract_pages_run, if_neg hfull],
      by rw [pull_pages_run, if_neg hfull]⟩
  · rw [getmod_run]
    rw [if_pos (Or.inl hshort)]
  · rw [getmod_run]
    rw [if_pos (Or.inr hempty), hempty]
  · rw [getmod_run]
    rw [if_neg (by tauto)]

/-- Witness for `misp_pagination_terminates` at a concrete page stream
whose first short page is page 3. -/
theorem misp_pagination_terminates_witness :
    retract_pages_run 2 (fun p => if p < 3 then 2 else 1) 5 1 = some 3 ∧
    pull_pages_run 2 (fun p => if p < 3 then 2 else 1) 5 1 = some (3, 4) := by
  have h := (misp_pagination_terminates 2 (fun p => if p < 3 then 2 else 1)
    [] [] (fun _ => []) 5 1 3 ∅).2.2.1
  exact h (by omega) (by omega) (by decide) (fun k hk1 hk2 => by simp [hk2])

/-- The pattern head character `p` is itself a `[^&\\s]` character. -/
theorem isSens_p : isSens 'p' = true := by decide

/-- A list that `password=` is a prefix of starts with `p`. -/
theorem pw_head {h : Char} {l : List Char}
    (hp : pwPat.isPrefixOf (h :: l) = true) : h = 'p' := by
  rw [List.isPrefixOf_iff_prefix] at hp
  rcases hp with ⟨t, ht⟩
  have h2 : pwPat ++ t = h :: l := ht
  rw [show pwPat = 'p' :: "assword=".data from rfl] at h2
  simp only [List.cons_append] at h2
  injection h2 with h3 h4
  exact h3.symm

/-- At a position whose character is not `p` no match can start: the
scanner emits the character and moves on. -/
theorem rmsi_emit {h : Char} {l : List Char} (hne : h ≠ 'p') :
    removeSensitiveInfo (h :: l) = h :: removeSensitiveInfo l := by
  rw [removeSensitiveInfo.eq_2]
  rw [if_neg (fun hp => hne (pw_head hp))]

/-- A `&`/whitespace character can never start a match. -/
theorem rmsi_emit_nosens {h : Char} {l : List Char} (hs : isSens h = false) :
    removeSensitiveInfo (h :: l) = h :: removeSensitiveInfo l :=
  rmsi_emit (fun he => by rw [he] at hs; exact absurd hs (by decide))

/-- What remains after dropping the maximal `[^&\\s]` run does not start
with a `[^&\\s]` character. -/
theorem noSensHead_dropWhile (l : List Char) :
    NoSensHead (l.dropWhile isSens) := by
  induction l with
  | nil => trivial
  | cons c rest ih =>
    rw [List.dropWhile_cons]
    by_cases hc : isSens c = true
    · rw [if_pos hc]; exact ih
    · rw [if_neg hc]
      simp only [NoSensHead]
      exact Bool.not_eq_true _ ▸ hc

/-- The maximal `[^&\\s]` run of `v ++ b` is exactly `v` when all of `v`
matches and `b` does not start with a matching character. -/
theorem takeWhile_sens_append {v b : List Char}
    (hv : ∀ c ∈ v, isSens c = true) (hb : NoSensHead b) :
    (v ++ b).takeWhile isSens = v ∧ (v ++ b).dropWhile isSens = b := by
  induction v with
  | nil =>
    simp only [List.nil_append]
    cases b with
    | nil => simp
    | cons hd tl =>
      simp only [NoSensHead] at hb
      rw [List.takeWhile_cons, List.dropWhile_cons, if_neg (by simp [hb]),
        if_neg (by simp [hb])]
      exact ⟨rfl, rfl⟩
  | cons c v' ih =>
    have hc : isSens c = true := hv c (List.mem_cons_self _ _)
    have ih' := ih (fun x hx => hv x (List.mem_cons_of_mem _ hx))
    simp only [List.cons_append, List.takeWhile_cons, List.dropWhile_cons,
      if_pos hc, hc]
    simp only [ih'.1, ih'.2]
    exact ⟨rfl, rfl⟩

/-- At a match site — `password=` followed by a maximal non-empty value
run `v` — the substitution replaces `password=` and `v` by the literal
`password=<Password>` and continues after the match. -/
theorem rmsi_head_match {v b : List Char} (hv : v ≠ [])
    (hvs : ∀ c ∈ v, isSens c = true) (hb : NoSensHead b) :
    removeSensitiveInfo (pwPat ++ v ++ b) =
      redactTag ++ removeSensitiveInfo b := by
  have hshape : pwPat ++ v ++ b = 'p' :: ("assword=".data ++ (v ++ b)) := by
    rw [show pwPat = 'p' :: "assword=".data from rfl]
    simp
  rw [hshape, removeSensitiveInfo.eq_2]
  have hpre : pwPat.isPrefixOf ('p' :: ("assword=".data ++ (v ++ b))) = true := by
    rw [List.isPrefixOf_iff_prefix]
    exact ⟨v ++ b, by rw [← hshape]; simp⟩
  rw [if_pos hpre]
  have hdrop : ('p' :: ("assword=".data ++ (v ++ b))).drop pwPat.length =
      v ++ b := by
    rw [← hshape, show pwPat ++ v ++ b = pwPat ++ (v ++ b) from by simp]
    exact List.drop_left pwPat (v ++ b)
  rw [hdrop, (takeWhile_sens_append hvs hb).1, (takeWhile_sens_append hvs hb).2,
    if_neg hv]

/-- The value run is empty exactly when the list does not start with a
`[^&\\s]` character. -/
theorem takeWhile_nil_iff {l : List Char} :
    l.takeWhile isSens = [] ↔ NoSensHead l := by
  cases l with
  | nil => simp [NoSensHead]
  | cons c rest =>
    rw [List.takeWhile_cons]
    by_cases hc : isSens c = true
    · rw [if_pos hc]
      simp [NoSensHead, hc]
    · rw [if_neg hc]
      simp only [NoSensHead]
      simp [Bool.not_eq_true _ ▸ hc]

/-- A `p`-free prefix of the sanitised output is copied verbatim from the
input: no replacement text can begin inside it (the replacement starts
with `p`). -/
theorem rmsi_pfree_prefix (p : List Char) (hp : ∀ c ∈ p, c ≠ 'p') :
    ∀ t, p <+: removeSensitiveInfo t →
      p <+: t ∧
        removeSensitiveInfo t = p ++ removeSensitiveInfo (t.drop p.length) := by
  induction p with
  | nil => intro t _; simp
  | cons c p' ih =>
    intro t hpre
    have hc : c ≠ 'p' := hp c (List.mem_cons_self _ _)
    cases t with
    | nil =>
      rw [removeSensitiveInfo.eq_1] at hpre
      exact absurd (List.eq_nil_of_prefix_nil hpre) (by simp)
    | cons d t' =>
      by_cases hd : pwPat.isPrefixOf (d :: t') = true
      · exfalso
        have hdp : d = 'p' := pw_head hd
        rw [removeSensitiveInfo.eq_2, if_pos hd] at hpre
        by_cases hrun :
            ((d :: t').drop pwPat.length).takeWhile isSens = []
        · rw [if_pos hrun] at hpre
          rw [List.cons_prefix_cons] at hpre
          exact hc (hpre.1.trans hdp)
        · rw [if_neg hrun,
            show redactTag = 'p' :: "assword=<Password>".data from rfl,
            List.cons_append, List.cons_prefix_cons] at hpre
          exact hc hpre.1
      · rw [removeSensitiveInfo.eq_2, if_neg hd, List.cons_prefix_cons]
          at hpre
        obtain ⟨hcd, hp'⟩ := hpre
        obtain ⟨hpre', heq⟩ :=
          ih (fun x hx => hp x (List.mem_cons_of_mem _ hx)) t' hp'
        constructor
        · rw [List.cons_prefix_cons]
          exact ⟨hcd, hpre'⟩
        · rw [removeSensitiveInfo.eq_2, if_neg hd, heq, hcd]
          simp [List.drop_succ_cons]

/-- The empty output contains no occurrence of `password=`. -/
theorem cleanOutput_nil : CleanOutput [] := by
  intro a b h
  exfalso
  have := congrArg List.length h
  simp [pwPat] at this
  omega

/-- Sanitising preserves a non-matching head character. -/
theorem rmsi_nosenshead {w : List Char} (hw : NoSensHead w) :
    NoSensHead (removeSensitiveInfo w) := by
  cases w with
  | nil => rw [removeSensitiveInfo.eq_1]; trivial
  | cons h w' =>
    simp only [NoSensHead] at hw
    rw [rmsi_emit_nosens hw]
    exact hw

/-- Peeling one emitted character: occurrences of `password=` at position
zero are handled by `hhead`, all others live in the recursive output. -/
theorem clean_cons (d : Char) (t : List Char)
    (hrec : CleanOutput (removeSensitiveInfo t))
    (hhead : ∀ b, d :: removeSensitiveInfo t = pwPat ++ b → RedactedTail b) :
    CleanOutput (d :: removeSensitiveInfo t) := by
  intro a b hout
  cases a with
  | nil => exact hhead b (by simpa using hout)
  | cons a0 a' =>
    rw [List.cons_append, List.cons_append] at hout
    injection hout with h1 h2
    exact hrec a' b (by simpa using h2)

/-- When the scanner emits because `password=` is not a prefix of the
input here, no occurrence of `password=` can start at this output
position either. -/
theorem clean_head_emit_nopre {d : Char} {t : List Char}
    (hd : ¬ pwPat.isPrefixOf (d :: t) = true) :
    ∀ b, d :: removeSensitiveInfo t = pwPat ++ b → RedactedTail b := by
  intro b hout
  exfalso
  rw [show pwPat = 'p' :: "assword=".data from rfl, List.cons_append] at hout
  injection hout with h1 h2
  have hpf : "assword=".data <+: removeSensitiveInfo t := ⟨b, h2.symm⟩
  obtain ⟨hpt, -⟩ := rmsi_pfree_prefix "assword=".data (by decide) t hpf
  obtain ⟨t2, ht2⟩ := hpt
  apply hd
  rw [List.isPrefixOf_iff_prefix]
  refine ⟨t2, ?_⟩
  rw [show pwPat = 'p' :: "assword=".data from rfl, List.cons_append, ht2, h1]

/-- When the scanner emits because the value run after `password=` is
empty, the corresponding output occurrence of `password=` is followed by
a non-matching character (or the end), so it needs no redaction. -/
theorem clean_head_emptyrun {d : Char} {t : List Char}
    (hrun : ((d :: t).drop pwPat.length).takeWhile isSens = []) :
    ∀ b, d :: removeSensitiveInfo t = pwPat ++ b → RedactedTail b := by
  intro b hout hd2 tl hb hsens
  exfalso
  rw [show pwPat = 'p' :: "assword=".data from rfl, List.cons_append] at hout
  injection hout with h1 h2
  have hpf : "assword=".data <+: removeSensitiveInfo t := ⟨b, h2.symm⟩
  obtain ⟨-, heq⟩ := rmsi_pfree_prefix "assword=".data (by decide) t hpf
  have hb2 : b = removeSensitiveInfo (t.drop 8) := by
    apply @List.append_cancel_left Char "assword=".data
    rw [← h2, heq]
    rfl
  have hu : NoSensHead (t.drop 8) := by
    rw [← takeWhile_nil_iff]
    have : (d :: t).drop pwPat.length = t.drop 8 := by
      rw [show pwPat.length = 9 from rfl, List.drop_succ_cons]
    rw [← this]
    exact hrun
  have hnb : NoSensHead b := hb2 ▸ rmsi_nosenshead hu
  rw [hb] at hnb
  simp only [NoSensHead] at hnb
  rw [hsens] at hnb
  cases hnb

/-- The output of a match site is clean: the occurrence of `password=` at
its start is followed by exactly `<Password>`, no occurrence can start
inside the rest of the replacement text, and later occurrences live in
the recursive output. -/
theorem clean_match (w : List Char) (hw : NoSensHead w)
    (hrec : CleanOutput (removeSensitiveInfo w)) :
    CleanOutput (redactTag ++ removeSensitiveInfo w) := by
  intro a b hout
  by_cases hlen0 : a.length = 0
  · have ha : a = [] := List.eq_nil_of_length_eq_zero hlen0
    subst ha
    rw [List.nil_append] at hout
    rw [show redactTag = pwPat ++ redactedValue from rfl,
      List.append_assoc] at hout
    have hb : b = redactedValue ++ removeSensitiveInfo w :=
      (List.append_cancel_left hout.symm)
    intro hd tl hbc hsens
    exact ⟨removeSensitiveInfo w, hb, rmsi_nosenshead hw⟩
  · by_cases hlen18 : a.length ≤ 18
    · exfalso
      have haout : a <+: redactTag ++ removeSensitiveInfo w :=
        ⟨pwPat ++ b, by rw [hout, List.append_assoc]⟩
      have hrt : redactTag <+: redactTag ++ removeSensitiveInfo w :=
        ⟨removeSensitiveInfo w, rfl⟩
      have hpre : a <+: redactTag :=
        List.prefix_of_prefix_length_le haout hrt
          (by rw [show redactTag.length = 19 from rfl]; omega)
      obtain ⟨r, hr⟩ := hpre
      rw [← hr, List.append_assoc, List.append_assoc] at hout
      have hr2 : r ++ removeSensitiveInfo w = pwPat ++ b :=
        List.append_cancel_left hout
      cases r with
      | nil =>
        have := congrArg List.length hr
        simp [show redactTag.length = 19 from rfl] at this
        omega
      | cons r0 r' =>
        rw [show pwPat = 'p' :: "assword=".data from rfl] at hr2
        rw [List.cons_append] at hr2
        injection hr2 with hr0 hr2b
        have hdrop : redactTag.drop a.length = 'p' :: r' := by
          rw [← hr, hr0, List.drop_left]
        have hhead : (redactTag.drop a.length).head? = some 'p' := by
          rw [hdrop]; rfl
        have hk : ∀ k < 19, 1 ≤ k →
            (redactTag.drop k).head? ≠ some 'p' := by decide
        exact hk a.length (by omega) (by omega) hhead
    · have haout : a <+: redactTag ++ removeSensitiveInfo w :=
        ⟨pwPat ++ b, by rw [hout, List.append_assoc]⟩
      have hrt : redactTag <+: redactTag ++ removeSensitiveInfo w :=
        ⟨removeSensitiveInfo w, rfl⟩
      have hpre : redactTag <+: a :=
        List.prefix_of_prefix_length_le hrt haout
          (by rw [show redactTag.length = 19 from rfl]; omega)
      obtain ⟨a2, ha2⟩ := hpre
      rw [← ha2, List.append_assoc, List.append_assoc] at hout
      have : removeSensitiveInfo w = a2 ++ (pwPat ++ b) :=
        List.append_cancel_left hout
      exact hrec a2 b (by rw [this, List.append_assoc])

/-- Every sanitised string satisfies the redaction invariant. -/
theorem rmsi_clean : ∀ (n : Nat) (s : List Char), s.length ≤ n →
    CleanOutput (removeSensitiveInfo s) := by
  intro n
  induction n with
  | zero =>
    intro s hs
    have h0 : s = [] := List.eq_nil_of_length_eq_zero (by omega)
    subst h0
    rw [removeSensitiveInfo.eq_1]
    exact cleanOutput_nil
  | succ n ih =>
    intro s hs
    cases s with
    | nil =>
      rw [removeSensitiveInfo.eq_1]
      exact cleanOutput_nil
    | cons d t =>
      have hrec : CleanOutput (removeSensitiveInfo t) :=
        ih t (by simp only [List.length_cons] at hs; omega)
      by_cases hd : pwPat.isPrefixOf (d :: t) = true
      · by_cases hrun : ((d :: t).drop pwPat.length).takeWhile isSens = []
        · rw [removeSensitiveInfo.eq_2, if_pos hd, if_pos hrun]
          exact clean_cons d t hrec (clean_head_emptyrun hrun)
        · rw [removeSensitiveInfo.eq_2, if_pos hd, if_neg hrun]
          refine clean_match _ (noSensHead_dropWhile _) (ih _ ?_)
          have h1 := (@List.dropWhile_sublist Char
            ((d :: t).drop pwPat.length) isSens).length_le
          simp only [List.length_drop, List.length_cons,
            show pwPat.length = 9 from rfl] at h1 ⊢
          simp only [List.length_cons] at hs
          omega
      · rw [removeSensitiveInfo.eq_2, if_neg hd]
        exact clean_cons d t hrec (clean_head_emit_nopre hd)

/-- **C7.**  `remove_sensitive_info` replaces every substring matching
`password=<value>` (value a maximal non-empty run without `&` or
whitespace) by the literal text `password=<Password>`: at every match
site the substitution rewrites `password=` and the value into
`password=<Password>` and continues after the match, and in the sanitised
output every occurrence of `password=` followed by a value character is
followed by exactly `<Password>` — so the configured password value never
appears after `password=` in any logged message or traceback. -/
theorem remove_sensitive_info_redacts (s v b : List Char) :
    CleanOutput (removeSensitiveInfo s) ∧
    (v ≠ [] → (∀ c ∈ v, isSens c = true) → NoSensHead b →
      removeSensitiveInfo (pwPat ++ v ++ b) =
        redactTag ++ removeSensitiveInfo b) :=
  ⟨rmsi_clean s.length s le_rfl,
   fun hv hvs hb => rmsi_head_match hv hvs hb⟩

/-- Witness for `remove_sensitive_info_redacts` at a concrete secret. -/
theorem remove_sensitive_info_redacts_witness :
    removeSensitiveInfo (pwPat ++ "hunter2".data ++ "&x=1".data) =
      redactTag ++ removeSensitiveInfo ("&x=1".data) :=
  (remove_sensitive_info_redacts [] "hunter2".data "&x=1".data).2
    (by decide) (by decide) (by show isSens '&' = false; decide)
